import Mathlib

/-!
# Verification of the SimpleChatbot matching-and-response engine

Shallow embedding of `src/non_llm_chat/src/non_llm_chat/SimpleChatbot.py`.

Modelling conventions:
* Python floats are modelled as exact rationals (`ℚ`).  All concrete values
  appearing in the theorems below are exactly representable, so the model and
  CPython agree on them; the idealization only shows on inputs whose float
  arithmetic rounds (these never appear in a concrete statement here).
* Character classes (`\d`, `\s`, `str.lower`, `str.strip`) are modelled over
  ASCII, matching CPython on all ASCII input.
* `eval` is modelled by a recursive-descent parser and evaluator for the
  expression fragment reachable through `handle_math`: after the sanitizing
  substitutions the string contains only `0-9 + - * / ( ) .`, so the
  reachable Python grammar is numbers, the empty tuple `()`, unary `+`/`-`,
  binary `+ - * / // **` and parentheses.  Python compiles before running,
  so parse errors take precedence over runtime errors, which the
  parse-then-evaluate structure reproduces.  Call forms such as `(1)(2)`
  are modelled as parse errors; CPython raises `TypeError` at runtime
  instead, and both surface as the same generic failure message in
  `handle_math`.  Powers with a non-integral exponent fall outside the
  exact-rational fragment and are modelled as a generic failure.
* The SQLite tables become in-memory lists; the load order of patterns
  (`ORDER BY weight DESC`, insertion order within equal weights) is the
  order of `defaultPatterns`.
* Wall-clock time is passed explicitly as a `Clock` of preformatted fields.
* Storage failures are injected through an explicit `fault : Option String`
  parameter standing for an exception (with its message) raised by the
  database layer; `none` is the normal, non-faulting run.
-/

/-- ASCII whitespace, the fragment of Python's `\s` / `str.strip` relevant here. -/
def isPySpace (c : Char) : Bool :=
  c = ' ' || c = '\t' || c = '\n' || c = '\x0d' || c = '\x0b' || c = '\x0c'

/-- Characters kept by the first sanitizing substitution in `handle_math`:
`re.sub(r'[^\d\+\-\*\/\(\)\.\s]', '', expression)`. -/
def isExprChar (c : Char) : Bool :=
  c.isDigit || c = '+' || c = '-' || c = '*' || c = '/' ||
    c = '(' || c = ')' || c = '.' || isPySpace c

/-- Characters of the whitelist grammar `^[\d\+\-\*\/\(\)\.]+$`. -/
def isMathChar (c : Char) : Bool :=
  c.isDigit || c = '+' || c = '-' || c = '*' || c = '/' ||
    c = '(' || c = ')' || c = '.'

/-- The two sanitizing substitutions of `handle_math`: drop every character
outside the digit/operator/whitespace class, then drop all whitespace. -/
def cleanExpr (s : String) : String :=
  String.mk (((s.data.filter isExprChar).filter (fun c => !(isPySpace c))))

/-- `re.match(r'^[\d\+\-\*\/\(\)\.]+$', expr)`: non-empty and all characters
in the whitelist class. -/
def grammarCheck (s : String) : Bool :=
  !(s.data.isEmpty) && s.data.all isMathChar

/-- Values produced by Python `eval` on the whitelisted grammar: ints,
floats (modelled as exact rationals) and the empty tuple `()`. -/
inductive PyVal where
  | int (n : ℤ)
  | float (q : ℚ)
  | unit
deriving DecidableEq

/-- Evaluation failures: `ZeroDivisionError`, or anything else (syntax
errors, `TypeError`, ...), which `handle_math` does not distinguish. -/
inductive PyErr where
  | divZero
  | other
deriving DecidableEq

/-- Numeric view of a value; `none` for the tuple. -/
def toQ : PyVal → Option ℚ
  | .int n => some (n : ℚ)
  | .float q => some q
  | .unit => none

def pyAdd : PyVal → PyVal → Except PyErr PyVal
  | .int a, .int b => .ok (.int (a + b))
  | .unit, .unit => .ok .unit
  | a, b =>
    match toQ a, toQ b with
    | some x, some y => .ok (.float (x + y))
    | _, _ => .error .other

def pySub : PyVal → PyVal → Except PyErr PyVal
  | .int a, .int b => .ok (.int (a - b))
  | a, b =>
    match toQ a, toQ b with
    | some x, some y => .ok (.float (x - y))
    | _, _ => .error .other

def pyMul : PyVal → PyVal → Except PyErr PyVal
  | .int a, .int b => .ok (.int (a * b))
  | .unit, .int _ => .ok .unit
  | .int _, .unit => .ok .unit
  | a, b =>
    match toQ a, toQ b with
    | some x, some y => .ok (.float (x * y))
    | _, _ => .error .other

/-- Python true division: always a float, `ZeroDivisionError` on a zero
divisor. -/
def pyDiv (a b : PyVal) : Except PyErr PyVal :=
  match toQ a, toQ b with
  | some x, some y => if y = 0 then .error .divZero else .ok (.float (x / y))
  | _, _ => .error .other

/-- Python floor division `//`. -/
def pyFloorDiv : PyVal → PyVal → Except PyErr PyVal
  | .int a, .int b => if b = 0 then .error .divZero else .ok (.int (Int.fdiv a b))
  | a, b =>
    match toQ a, toQ b with
    | some x, some y =>
      if y = 0 then .error .divZero else .ok (.float ((⌊x / y⌋ : ℤ) : ℚ))
    | _, _ => .error .other

/-- Python `**`.  `int ** nonnegative int` stays an int; a negative integer
exponent produces a float (`ZeroDivisionError` for base 0).  Non-integral
exponents are outside the exact-rational fragment and are modelled as a
generic failure. -/
def pyPow : PyVal → PyVal → Except PyErr PyVal
  | .int m, .int e =>
    if 0 ≤ e then .ok (.int (m ^ e.toNat))
    else if m = 0 then .error .divZero
    else .ok (.float ((m : ℚ) ^ e))
  | a, b =>
    match toQ a, toQ b with
    | some x, some y =>
      if y.den = 1 then
        if x = 0 ∧ y.num < 0 then .error .divZero
        else .ok (.float (x ^ y.num))
      else .error .other
    | _, _ => .error .other

def pyNeg : PyVal → Except PyErr PyVal
  | .int n => .ok (.int (-n))
  | .float q => .ok (.float (-q))
  | .unit => .error .other

def pyPos : PyVal → Except PyErr PyVal
  | .int n => .ok (.int n)
  | .float q => .ok (.float q)
  | .unit => .error .other

/-- Abstract syntax of the reachable expression fragment. -/
inductive PyExpr where
  | lit (v : PyVal)
  | pos (e : PyExpr)
  | neg (e : PyExpr)
  | add (a b : PyExpr)
  | sub (a b : PyExpr)
  | mul (a b : PyExpr)
  | div (a b : PyExpr)
  | fdv (a b : PyExpr)
  | pow (a b : PyExpr)
deriving DecidableEq

/-- Evaluation, operands left to right, errors propagating as in CPython. -/
def evalE : PyExpr → Except PyErr PyVal
  | .lit v => .ok v
  | .pos e => do pyPos (← evalE e)
  | .neg e => do pyNeg (← evalE e)
  | .add a b => do pyAdd (← evalE a) (← evalE b)
  | .sub a b => do pySub (← evalE a) (← evalE b)
  | .mul a b => do pyMul (← evalE a) (← evalE b)
  | .div a b => do pyDiv (← evalE a) (← evalE b)
  | .fdv a b => do pyFloorDiv (← evalE a) (← evalE b)
  | .pow a b => do pyPow (← evalE a) (← evalE b)

def digitsVal (l : List Char) : ℕ :=
  l.foldl (fun a c => 10 * a + (c.toNat - 48)) 0

/-- A decimal integer literal is valid in Python 3 iff it has no leading
zero, except for a run consisting only of zeros. -/
def intLitOk (l : List Char) : Bool :=
  match l with
  | '0' :: _ => l.all (fun c => c = '0')
  | _ => true

/-- Number literal at the head of the input: digits, optionally a dot and
more digits, or a dot followed by digits. -/
def parseNum (cs : List Char) : Option (PyExpr × List Char) :=
  match cs with
  | '.' :: r =>
    let d2 := r.takeWhile Char.isDigit
    let r2 := r.dropWhile Char.isDigit
    if d2.isEmpty then none
    else some (.lit (.float ((digitsVal d2 : ℚ) / (10 : ℚ) ^ d2.length)), r2)
  | c :: _ =>
    if c.isDigit then
      let d1 := cs.takeWhile Char.isDigit
      let r1 := cs.dropWhile Char.isDigit
      match r1 with
      | '.' :: r =>
        let d2 := r.takeWhile Char.isDigit
        let r2 := r.dropWhile Char.isDigit
        some (.lit (.float ((digitsVal d1 : ℚ) + (digitsVal d2 : ℚ) / (10 : ℚ) ^ d2.length)), r2)
      | _ => if intLitOk d1 then some (.lit (.int (digitsVal d1 : ℤ)), r1) else none
    else none
  | [] => none

/-- Parser modes: the grammar nonterminals of the reachable fragment,
with the accumulator of the left-associative loops.
`expr := term (('+'|'-') term)*`, `term := factor (('*'|'/'|'//') factor)*`,
`factor := ('+'|'-') factor | pw`, `pw := atom ('**' factor)?`,
`atom := number | '(' ')' | '(' expr ')'`. -/
inductive PMode where
  | expr
  | exprL (acc : PyExpr)
  | term
  | termL (acc : PyExpr)
  | factor
  | pw
  | atom

/-- Fuel-indexed recursive-descent parser. -/
def parseP : ℕ → PMode → List Char → Option (PyExpr × List Char)
  | 0, _, _ => none
  | f + 1, m, cs =>
    match m with
    | .expr =>
      (parseP f .term cs).bind fun tr => parseP f (.exprL tr.1) tr.2
    | .exprL a =>
      match cs with
      | '+' :: r =>
        (parseP f .term r).bind fun tr => parseP f (.exprL (.add a tr.1)) tr.2
      | '-' :: r =>
        (parseP f .term r).bind fun tr => parseP f (.exprL (.sub a tr.1)) tr.2
      | _ => some (a, cs)
    | .term =>
      (parseP f .factor cs).bind fun tr => parseP f (.termL tr.1) tr.2
    | .termL a =>
      match cs with
      | '*' :: '*' :: _ => some (a, cs)
      | '*' :: r =>
        (parseP f .factor r).bind fun tr => parseP f (.termL (.mul a tr.1)) tr.2
      | '/' :: '/' :: r =>
        (parseP f .factor r).bind fun tr => parseP f (.termL (.fdv a tr.1)) tr.2
      | '/' :: r =>
        (parseP f .factor r).bind fun tr => parseP f (.termL (.div a tr.1)) tr.2
      | _ => some (a, cs)
    | .factor =>
      match cs with
      | '+' :: r => (parseP f .factor r).map fun tr => (.pos tr.1, tr.2)
      | '-' :: r => (parseP f .factor r).map fun tr => (.neg tr.1, tr.2)
      | _ => parseP f .pw cs
    | .pw =>
      (parseP f .atom cs).bind fun ar =>
        match ar.2 with
        | '*' :: '*' :: r2 =>
          (parseP f .factor r2).map fun br => (.pow ar.1 br.1, br.2)
        | _ => some ar
    | .atom =>
      match cs with
      | '(' :: ')' :: r => some (.lit .unit, r)
      | '(' :: r =>
        (parseP f .expr r).bind fun er =>
          match er.2 with
          | ')' :: r3 => some (er.1, r3)
          | _ => none
      | _ => parseNum cs

/-- `eval expr` on a sanitized string: compile (parse the whole string),
then run.  Any parse failure or leftover input is a non-`ZeroDivisionError`
exception. -/
def pyEvalStr (s : String) : Except PyErr PyVal :=
  match parseP (10 * (s.length + 1)) .expr s.data with
  | some (e, []) => evalE e
  | _ => .error .other

/-- The decimal digit character for `n % 10`. -/
def digCh (n : ℕ) : Char :=
  if n % 10 = 0 then '0' else if n % 10 = 1 then '1' else if n % 10 = 2 then '2'
  else if n % 10 = 3 then '3' else if n % 10 = 4 then '4' else if n % 10 = 5 then '5'
  else if n % 10 = 6 then '6' else if n % 10 = 7 then '7' else if n % 10 = 8 then '8'
  else '9'

/-- Decimal digits of `n`, most significant first (fuel-indexed). -/
def natDigits : ℕ → ℕ → List Char
  | 0, _ => []
  | f + 1, n => if n < 10 then [digCh n] else natDigits f (n / 10) ++ [digCh (n % 10)]

/-- `str` of a Python int. -/
def renderInt (n : ℤ) : String :=
  if n < 0 then String.mk ('-' :: natDigits (n.natAbs + 1) n.natAbs)
  else String.mk (natDigits (n.natAbs + 1) n.natAbs)

/-- Smallest number of decimal places (at most 17) rendering the
denominator exactly; 17 when none does. -/
def decPlaces (den : ℕ) : ℕ :=
  ((List.range 17).findSome? fun i =>
    if (10 : ℕ) ^ (i + 1) % den = 0 then some (i + 1) else none).getD 17

def padZeros (k : ℕ) (l : List Char) : List Char :=
  List.replicate (k - l.length) '0' ++ l

/-- `str` of a Python float, on the exact-rational model: integral values
render as `n.0`, and values with a terminating decimal expansion render
exactly (these agree with CPython's shortest round-trip `repr` whenever the
value is exactly representable, which covers every concrete float in this
file).  Non-terminating expansions are cut to 17 places. -/
def renderFloat (q : ℚ) : String :=
  if q.den = 1 then renderInt q.num ++ ".0"
  else
    let k := decPlaces q.den
    let scaled := (Rat.floor (|q| * (10 : ℚ) ^ k + 1 / 2)).toNat
    let ip := scaled / 10 ^ k
    let fp := scaled % 10 ^ k
    (if q < 0 then "-" else "") ++ String.mk (natDigits (ip + 1) ip) ++ "." ++
      String.mk (padZeros k (natDigits (fp + 1) fp))

/-- The f-string rendering of an evaluation result. -/
def renderVal : PyVal → String
  | .int n => renderInt n
  | .float q => renderFloat q
  | .unit => "()"

/-- `SimpleChatbot.handle_math`: sanitize, enforce the whitelist grammar
before any evaluation, then evaluate with `ZeroDivisionError` mapped to its
dedicated message and every other exception to the generic one. -/
def handle_math (expression : String) : String :=
  if grammarCheck (cleanExpr expression) then
    match pyEvalStr (cleanExpr expression) with
    | .ok result => "The answer is: " ++ renderVal result
    | .error .divZero => "Oops! Division by zero is not allowed."
    | .error .other => "I couldn\x27t solve that math problem. Please check your expression."
  else "I can only handle basic math with +, -, *, / and parentheses."


/-- `lhs` is a prefix of `rhs` (plain Boolean recursion). -/
def listPre : List Char → List Char → Bool
  | [], _ => true
  | _ :: _, [] => false
  | a :: as, b :: bs => a = b && listPre as bs

/-- `needle` occurs inside `hay` (Python's `in` on strings, and a
case-insensitive literal `re.search` once both sides are lowercased). -/
def subNeedle (needle : List Char) : List Char → Bool
  | [] => listPre needle []
  | c :: t => listPre needle (c :: t) || subNeedle needle t

def strContains (hay needle : String) : Bool :=
  subNeedle needle.data hay.data

/-- `str.strip()` over the ASCII whitespace set. -/
def pyStrip (s : String) : String :=
  String.mk (((s.data.dropWhile isPySpace).reverse.dropWhile isPySpace).reverse)

/-- `str.lower()` (ASCII). -/
def pyLower (s : String) : String :=
  String.mk (s.data.map Char.toLower)

/-- One character of the seed math regex `\d+\s*[\+\-\*\/]\s*\d+`. -/
def isOpChar (c : Char) : Bool :=
  c = '+' || c = '-' || c = '*' || c = '/'

/-- After a digit: optional whitespace, an operator, optional whitespace,
then another digit. -/
def fragAfter (l : List Char) : Bool :=
  match l.dropWhile isPySpace with
  | o :: r =>
    isOpChar o &&
      (match r.dropWhile isPySpace with
       | d :: _ => d.isDigit
       | [] => false)
  | [] => false

/-- `re.search(r'.*\d+\s*[\+\-\*\/]\s*\d+.*', u)` succeeds iff some digit is
followed (through optional whitespace) by an operator and another digit. -/
def containsMathFrag : List Char → Bool
  | [] => false
  | c :: rest => (c.isDigit && fragAfter rest) || containsMathFrag rest

/-- Characters of the extraction class `[\d\+\-\*\/\(\)\.\s]+` used by
`find_best_response` on a math match. -/
def isClassChar (c : Char) : Bool :=
  c.isDigit || c = '+' || c = '-' || c = '*' || c = '/' ||
    c = '(' || c = ')' || c = '.' || isPySpace c

/-- `re.search(r'[\d\+\-\*\/\(\)\.\s]+', u)`: the first maximal run of
class characters, if any. -/
def extractMathSub (s : String) : Option String :=
  match s.data.dropWhile (fun c => !(isClassChar c)) with
  | [] => none
  | l => some (String.mk (l.takeWhile isClassChar))

/-- The matchers occurring in the seed patterns: an alternation of literal
substrings, the math regex, or the catch-all `.*`. -/
inductive Pat where
  | lits (alts : List String)
  | mathRe
  | anyRe
deriving DecidableEq

/-- `compiled.search(u)` for the three matcher shapes (the input is already
lowercased, matching `re.IGNORECASE` over lowercase seed literals). -/
def Pat.search : Pat → String → Bool
  | .lits alts, u => alts.any (fun a => strContains u a)
  | .mathRe, u => containsMathFrag u.data
  | .anyRe, _ => true

/-- One row of the patterns table as loaded by `load_responses`. -/
structure Pattern where
  pat : Pat
  response : String
  category : String
  weight : ℚ
deriving DecidableEq

/-- Preformatted wall-clock fields (`%H:%M:%S` and `%A, %B %d, %Y`). -/
structure Clock where
  hms : String
  wdmdy : String
deriving DecidableEq

/-- `SimpleChatbot.handle_time_query`. -/
def handle_time_query (now : Clock) : String :=
  "The current time is " ++ now.hms ++ " on " ++ now.wdmdy ++ "."

/-- `SimpleChatbot.handle_date_query`. -/
def handle_date_query (now : Clock) : String :=
  "Today is " ++ now.wdmdy ++ "."

/-- The loop body of `find_best_response`: scan patterns in load order,
short-circuit on math/time/date, otherwise track the best strictly-greater
weight among patterns with non-empty response text. -/
def findGo (u : String) (now : Clock) :
    List Pattern → Option String → ℚ → String × ℚ
  | [], best, bestConf =>
    (best.getD "I\x27m not sure how to respond to that.", bestConf)
  | p :: ps, best, bestConf =>
    if p.pat.search u then
      if p.category = "math" then
        match extractMathSub u with
        | some e => (handle_math e, p.weight)
        | none => findGo u now ps best bestConf
      else if p.category = "time" then (handle_time_query now, p.weight)
      else if p.category = "date" then (handle_date_query now, p.weight)
      else if p.response = "" then findGo u now ps best bestConf
      else if bestConf < p.weight then findGo u now ps (some p.response) p.weight
      else findGo u now ps best bestConf
    else findGo u now ps best bestConf

/-- `SimpleChatbot.find_best_response` over a loaded pattern list. -/
def find_best_response (patterns : List Pattern) (user_input : String)
    (now : Clock) : String × ℚ :=
  findGo (pyLower (pyStrip user_input)) now patterns none 0

/-- The seed patterns of `load_initial_patterns`, in the load order of
`load_responses` (`ORDER BY weight DESC`, insertion order within ties). -/
def pMath : Pattern := ⟨.mathRe, "", "math", 2⟩

def pTime : Pattern := ⟨.lits ["what time", "current time", "time now"], "", "time", 2⟩

def pDate : Pattern := ⟨.lits ["what date", "current date", "today"], "", "date", 2⟩

def pGreeting : Pattern :=
  ⟨.lits ["hello", "hi", "hey", "good morning", "good afternoon", "good evening"],
    "Hello! How can I help you today?", "greeting", 1⟩

def pHowAre : Pattern :=
  ⟨.lits ["how are you", "how do you do"],
    "I\x27m doing well, thank you for asking! How are you?", "greeting", 1⟩

def pIdentity : Pattern :=
  ⟨.lits ["what are you", "who are you", "what is your name"],
    "I\x27m a simple non-LLM chatbot built with Python. I use pattern matching and rule-based responses!",
    "identity", 1⟩

def pCapabilities : Pattern :=
  ⟨.lits ["what can you do", "what are your capabilities"],
    "I can have conversations, answer basic questions, do simple math, tell time, and learn from our chats!",
    "capabilities", 1⟩

def pGratitude : Pattern :=
  ⟨.lits ["thank you", "thanks"],
    "You\x27re welcome! Is there anything else I can help you with?", "gratitude", 1⟩

def pFarewell : Pattern :=
  ⟨.lits ["goodbye", "bye", "see you", "farewell"],
    "Goodbye! It was nice chatting with you. Come back anytime!", "farewell", 1⟩

def pHelp : Pattern :=
  ⟨.lits ["help", "assistance"],
    "I\x27m here to help! You can ask me questions, chat with me, or ask me to solve simple math problems.",
    "help", 1⟩

def pHumor : Pattern :=
  ⟨.lits ["tell me a joke", "joke", "funny"],
    "Why don\x27t scientists trust atoms? Because they make up everything! 😄", "humor", 1⟩

def pAge : Pattern :=
  ⟨.lits ["how old are you"],
    "I was just created, so I\x27m practically a newborn in AI years!", "age", 1⟩

def pFallback : Pattern :=
  ⟨.anyRe,
    "I understand you\x27re trying to tell me something, but I\x27m not quite sure how to respond. Could you try rephrasing?",
    "fallback", 1 / 10⟩

def defaultPatterns : List Pattern :=
  [pMath, pTime, pDate, pGreeting, pHowAre, pIdentity, pCapabilities,
   pGratitude, pFarewell, pHelp, pHumor, pAge, pFallback]

/-- One durable `conversations` row. -/
structure Exchange where
  user_input : String
  bot_response : String
  confidence : ℚ
deriving DecidableEq

/-- In-memory and durable chatbot state: the session history ring and the
conversation log table. -/
structure ChatState where
  conversation_history : List (String × String)
  log : List Exchange
deriving DecidableEq

def initState : ChatState := ⟨[], []⟩

/-- Round half to even, Python's `round` on exact values. -/
def rhe (x : ℚ) : ℤ :=
  let f := Rat.floor x
  if x - f < 1 / 2 then f
  else if 1 / 2 < x - f then f + 1
  else if f % 2 = 0 then f else f + 1

/-- `round(x, 2)`. -/
def round2 (x : ℚ) : ℚ := (rhe (x * 100) : ℚ) / 100

structure Stats where
  total_conversations : ℕ
  average_confidence : ℚ
  unique_inputs : ℕ
deriving DecidableEq

/-- `SimpleChatbot.get_conversation_stats`: `COUNT(*)`,
`round(AVG(confidence) or 0.0, 2)` and `COUNT(DISTINCT user_input)` over the
conversations table. -/
def get_conversation_stats (log : List Exchange) : Stats :=
  { total_conversations := log.length
    average_confidence :=
      round2 (if log.length = 0 then 0
              else (log.map (fun e => e.confidence)).sum / (log.length : ℚ))
    unique_inputs := (log.map (fun e => e.user_input)).dedup.length }

/-- The history ring update: append, then keep the last 20 when the length
exceeds 20 (`history[-20:]`). -/
def push20 (h : List (String × String)) (p : String × String) :
    List (String × String) :=
  if 20 < (h ++ [p]).length then (h ++ [p]).drop ((h ++ [p]).length - 20)
  else h ++ [p]

/-- `history[-3:]`. -/
def takeLast3 (l : List (String × String)) : List (String × String) :=
  l.drop (l.length - 3)

/-- The rendered text of the `stats` command. -/
def statsText (st : Stats) : String :=
  "Chat Statistics:\n• Total conversations: " ++ renderInt (st.total_conversations : ℤ) ++
    "\n• Average confidence: " ++ renderFloat st.average_confidence ++
    "\n• Unique questions: " ++ renderInt (st.unique_inputs : ℤ)

/-- The body of the `try` block of `SimpleChatbot.get_response`.  A raised
storage exception (`fault = some m`, hit at the first database access of the
branch) escapes as `Except.error m`. -/
def get_responseCore (st : ChatState) (message : String) (now : Clock)
    (fault : Option String) : Except String (String × ChatState) :=
  if pyStrip message = "" then
    .ok ("Please say something! I\x27m here to chat with you.", st)
  else
    let low := pyLower message
    if strContains low "conversation history" || strContains low "chat history" then
      if st.conversation_history = [] then
        .ok ("We haven\x27t chatted yet! This is our first conversation.", st)
      else
        .ok ("Here are our recent exchanges:\n\n" ++
          String.intercalate "\n"
            ((takeLast3 st.conversation_history).map
              (fun p => "You: " ++ p.1 ++ "\nMe: " ++ p.2)), st)
    else if strContains low "clear history" then
      .ok ("Conversation history cleared! Starting fresh.",
        { st with conversation_history := [] })
    else if strContains low "stats" || strContains low "statistics" then
      match fault with
      | some m => .error m
      | none => .ok (statsText (get_conversation_stats st.log), st)
    else
      let rc := find_best_response defaultPatterns message now
      match fault with
      | some m => .error m
      | none =>
        .ok (rc.1,
          { conversation_history := push20 st.conversation_history (message, rc.1)
            log := st.log ++ [⟨message, rc.1, rc.2⟩] })

/-- `SimpleChatbot.get_response`: the `try`/`except` wrapper converting any
escaped exception into the fixed error template. -/
def get_response (st : ChatState) (message : String) (now : Clock)
    (fault : Option String) : String × ChatState :=
  match get_responseCore st message now fault with
  | .ok r => r
  | .error m =>
    ("I encountered an error: " ++ m ++ ". Please try rephrasing your message.", st)

/-- Fold of `get_response` over a message sequence on one instance,
fault-free. -/
def runAll (now : Clock) (st : ChatState) (msgs : List String) : ChatState :=
  msgs.foldl (fun s m => (get_response s m now none).2) st

/-- A turn that reaches the matcher: non-empty after stripping and not
intercepted by any command keyword. -/
def PlainMsg (m : String) : Prop :=
  pyStrip m ≠ "" ∧
    strContains (pyLower m) "conversation history" = false ∧
    strContains (pyLower m) "chat history" = false ∧
    strContains (pyLower m) "clear history" = false ∧
    strContains (pyLower m) "stats" = false ∧
    strContains (pyLower m) "statistics" = false

instance (m : String) : Decidable (PlainMsg m) := by
  unfold PlainMsg; infer_instance

instance {ε α : Type _} [DecidableEq ε] [DecidableEq α] : DecidableEq (Except ε α)
  | .ok a, .ok b =>
    if h : a = b then .isTrue (by rw [h]) else .isFalse (fun he => h (Except.ok.inj he))
  | .ok _, .error _ => .isFalse (fun he => Except.noConfusion he)
  | .error _, .ok _ => .isFalse (fun he => Except.noConfusion he)
  | .error a, .error b =>
    if h : a = b then .isTrue (by rw [h]) else .isFalse (fun he => h (Except.error.inj he))

/-- A fixed clock value used to instantiate the theorems below. -/
def clk0 : Clock := ⟨"12:00:00", "Monday, January 01, 2024"⟩

lemma append_left_ne_empty (a b : String) (h : a ≠ "") : a ++ b ≠ "" := by
  intro he
  apply h
  have hd := String.ext_iff.mp he
  rw [String.data_append] at hd
  exact String.ext (List.append_eq_nil.mp hd).1

lemma handle_math_ne_empty (e : String) : handle_math e ≠ "" := by
  unfold handle_math
  split
  · split
    · exact append_left_ne_empty _ _ (by decide)
    · decide
    · decide
  · decide

lemma handle_time_query_ne_empty (now : Clock) : handle_time_query now ≠ "" := by
  unfold handle_time_query
  exact append_left_ne_empty ("The current time is " ++ now.hms ++ " on " ++ now.wdmdy) "."
    (append_left_ne_empty ("The current time is " ++ now.hms ++ " on ") now.wdmdy
      (append_left_ne_empty ("The current time is " ++ now.hms) " on "
        (append_left_ne_empty "The current time is " now.hms (by decide))))

lemma handle_date_query_ne_empty (now : Clock) : handle_date_query now ≠ "" := by
  unfold handle_date_query
  exact append_left_ne_empty ("Today is " ++ now.wdmdy) "."
    (append_left_ne_empty "Today is " now.wdmdy (by decide))

/-- C1: the `try`/`except Exception` wrapper of `get_response`: a normal
result of the body is passed through unchanged, and any exception `m`
raised inside the body is converted to the fixed interpolated template with
the pre-call state preserved, so no exception reaches the caller and the
failure is confined to that single call. -/
theorem get_response_catches (st : ChatState) (msg : String) (now : Clock)
    (fault : Option String) :
    (∀ r, get_responseCore st msg now fault = .ok r →
      get_response st msg now fault = r)
    ∧ (∀ m, get_responseCore st msg now fault = .error m →
      get_response st msg now fault =
        ("I encountered an error: " ++ m ++ ". Please try rephrasing your message.", st)) := by
  constructor
  · intro r h
    simp [get_response, h]
  · intro m h
    simp [get_response, h]

/-- Witness for C1 at a failing storage layer. -/
theorem get_response_catches_witness :
    get_response initState "z" clk0 (some "database is locked") =
      ("I encountered an error: database is locked. Please try rephrasing your message.",
        initState) :=
  (get_response_catches initState "z" clk0 (some "database is locked")).2
    "database is locked" (by decide)

/-- C2: the whitelist is enforced before evaluation: the cleaned string
contains only whitelisted characters, a cleaned string failing the grammar
yields the fixed refusal without any evaluation, and evaluation is only ever
applied to the cleaned string once it passes the grammar. -/
theorem handle_math_whitelist (s : String) :
    (∀ c ∈ (cleanExpr s).data, isMathChar c = true)
    ∧ (grammarCheck (cleanExpr s) = false →
      handle_math s = "I can only handle basic math with +, -, *, / and parentheses.")
    ∧ (grammarCheck (cleanExpr s) = true →
      handle_math s =
        match pyEvalStr (cleanExpr s) with
        | .ok result => "The answer is: " ++ renderVal result
        | .error .divZero => "Oops! Division by zero is not allowed."
        | .error .other => "I couldn\x27t solve that math problem. Please check your expression.") := by
  refine ⟨?_, ?_, ?_⟩
  · intro c hc
    have hc1 := List.mem_filter.mp hc
    have hc2 := List.mem_filter.mp hc1.1
    have hx : isExprChar c = true := hc2.2
    have hns : isPySpace c = false := by
      have := hc1.2
      simpa using this
    simp only [isExprChar, Bool.or_eq_true] at hx
    simp only [isMathChar, Bool.or_eq_true]
    rcases hx with ((((((((h | h) | h) | h) | h) | h) | h) | h) | h)
    · exact Or.inl (Or.inl (Or.inl (Or.inl (Or.inl (Or.inl (Or.inl h))))))
    · exact Or.inl (Or.inl (Or.inl (Or.inl (Or.inl (Or.inl (Or.inr h))))))
    · exact Or.inl (Or.inl (Or.inl (Or.inl (Or.inl (Or.inr h)))))
    · exact Or.inl (Or.inl (Or.inl (Or.inl (Or.inr h))))
    · exact Or.inl (Or.inl (Or.inl (Or.inr h)))
    · exact Or.inl (Or.inl (Or.inr h))
    · exact Or.inl (Or.inr h)
    · exact Or.inr h
    · rw [h] at hns
      cases hns
  · intro hg
    simp [handle_math, hg]
  · intro hg
    simp [handle_math, hg]

/-- Witness for C2: a letters-only input is refused, and a mixed input is
cleaned to whitelisted characters only. -/
theorem handle_math_whitelist_witness :
    handle_math "abc" = "I can only handle basic math with +, -, *, / and parentheses."
    ∧ (∀ c ∈ (cleanExpr "what is 2+2?").data, isMathChar c = true) :=
  ⟨(handle_math_whitelist "abc").2.1 (by decide),
   (handle_math_whitelist "what is 2+2?").1⟩

/-- C5: the evaluator follows standard operator precedence, not
left-to-right order: `5 + 3 * 2` is 11, while the parenthesized
left-to-right grouping `(5 + 3) * 2` is 16. -/
theorem handle_math_precedence :
    handle_math "5 + 3 * 2" = "The answer is: 11"
    ∧ handle_math "(5 + 3) * 2" = "The answer is: 16" := by
  constructor <;> decide

/-- C6: on an expression that passed the character-class check, a division
by zero yields the dedicated fixed message, any other evaluation failure
yields the generic fixed message, and the two messages are distinct. -/
theorem handle_math_error_messages (s : String)
    (hg : grammarCheck (cleanExpr s) = true) :
    (pyEvalStr (cleanExpr s) = .error .divZero →
      handle_math s = "Oops! Division by zero is not allowed.")
    ∧ (pyEvalStr (cleanExpr s) = .error .other →
      handle_math s = "I couldn\x27t solve that math problem. Please check your expression.")
    ∧ ("Oops! Division by zero is not allowed." : String) ≠
      "I couldn\x27t solve that math problem. Please check your expression." := by
  refine ⟨?_, ?_, by decide⟩
  · intro h
    simp [handle_math, hg, h]
  · intro h
    simp [handle_math, hg, h]

/-- Witness for C6: `5 / 0` divides by zero; `1 +` passes the character
check but is malformed. -/
theorem handle_math_error_messages_witness :
    handle_math "5 / 0" = "Oops! Division by zero is not allowed."
    ∧ handle_math "1 +" = "I couldn\x27t solve that math problem. Please check your expression." :=
  ⟨(handle_math_error_messages "5 / 0" (by decide)).1 (by decide),
   (handle_math_error_messages "1 +" (by decide)).2.1 (by decide)⟩

lemma digCh_ne_dot (n : ℕ) : digCh n ≠ '.' := by
  unfold digCh
  split_ifs <;> decide

lemma natDigits_no_dot : ∀ f n : ℕ, '.' ∉ natDigits f n := by
  intro f
  induction f with
  | zero => intro n; simp [natDigits]
  | succ f ih =>
    intro n
    simp only [natDigits]
    split
    · intro h
      exact digCh_ne_dot n (List.mem_singleton.mp h).symm
    · intro h
      rcases List.mem_append.mp h with h | h
      · exact ih _ h
      · exact digCh_ne_dot (n % 10) (List.mem_singleton.mp h).symm

lemma renderInt_no_dot (n : ℤ) : '.' ∉ (renderInt n).data := by
  unfold renderInt
  split
  · intro h
    rcases List.mem_cons.mp h with h | h
    · exact absurd h (by decide)
    · exact natDigits_no_dot _ _ h
  · exact natDigits_no_dot _ _

lemma renderFloat_has_dot (q : ℚ) : '.' ∈ (renderFloat q).data := by
  unfold renderFloat
  split
  · rw [String.data_append]
    exact List.mem_append_right _ (by decide)
  · rw [String.data_append, String.data_append]
    exact List.mem_append_left _ (List.mem_append_right _ (by decide))

/-- C7 counterexample: `10 / 2` evaluates successfully to the mathematical
integer 5, but Python true division produces the float `5.0`, so the
rendered result does contain a decimal point. -/
theorem handle_math_div_renders_decimal :
    handle_math "10 / 2" = "The answer is: 5.0"
    ∧ '.' ∈ (handle_math "10 / 2").data := by
  constructor <;> with_unfolding_all decide

/-- C7 amended: on success the reply is `"The answer is: "` followed by the
rendered result; results that are Python ints render without a decimal
point, but every float — including the integer-valued results `/` always
produces — renders with a decimal point. -/
theorem handle_math_success_render (s : String) (v : PyVal)
    (hg : grammarCheck (cleanExpr s) = true)
    (he : pyEvalStr (cleanExpr s) = .ok v) :
    handle_math s = "The answer is: " ++ renderVal v
    ∧ (∀ n, v = PyVal.int n → '.' ∉ (renderVal v).data)
    ∧ (∀ q, v = PyVal.float q → '.' ∈ (renderVal v).data) := by
  refine ⟨by simp [handle_math, hg, he], ?_, ?_⟩
  · rintro n rfl
    simpa [renderVal] using renderInt_no_dot n
  · rintro q rfl
    simpa [renderVal] using renderFloat_has_dot q

/-- Witness for the amended C7 at `10 / 2` (float) and `5 + 3 * 2` (int). -/
theorem handle_math_success_render_witness :
    handle_math "10 / 2" = "The answer is: " ++ renderVal (PyVal.float 5)
    ∧ '.' ∈ (renderVal (PyVal.float 5)).data
    ∧ handle_math "5 + 3 * 2" = "The answer is: " ++ renderVal (PyVal.int 11)
    ∧ '.' ∉ (renderVal (PyVal.int 11)).data :=
  ⟨(handle_math_success_render "10 / 2" (PyVal.float 5) (by decide)
      (by with_unfolding_all decide)).1,
   (handle_math_success_render "10 / 2" (PyVal.float 5) (by decide)
      (by with_unfolding_all decide)).2.2 5 rfl,
   (handle_math_success_render "5 + 3 * 2" (PyVal.int 11) (by decide)
      (by with_unfolding_all decide)).1,
   (handle_math_success_render "5 + 3 * 2" (PyVal.int 11) (by decide)
      (by with_unfolding_all decide)).2.1 11 rfl⟩

lemma frag_exists_digit :
    ∀ l : List Char, containsMathFrag l = true → ∃ c ∈ l, c.isDigit = true := by
  intro l
  induction l with
  | nil => simp [containsMathFrag]
  | cons c rest ih =>
    intro h
    simp only [containsMathFrag, Bool.or_eq_true, Bool.and_eq_true] at h
    rcases h with ⟨hd, _⟩ | h
    · exact ⟨c, List.mem_cons_self c rest, hd⟩
    · rcases ih h with ⟨d, hm, hd⟩
      exact ⟨d, List.mem_cons_of_mem _ hm, hd⟩

lemma extract_isSome (u : String) (h : containsMathFrag u.data = true) :
    ∃ e, extractMathSub u = some e := by
  rcases frag_exists_digit _ h with ⟨c, hm, hd⟩
  unfold extractMathSub
  split
  · rename_i hnil
    have := List.dropWhile_eq_nil_iff.mp hnil c hm
    have hcl : isClassChar c = true := by
      simp [isClassChar, hd]
    rw [hcl] at this
    cases this
  · exact ⟨_, rfl⟩

/-- C3: whenever the math seed pattern matches the normalized input, the
matcher immediately returns — bypassing all remaining patterns — the
arithmetic evaluator applied to the first run of digit/operator/whitespace
characters of the normalized input, with the pattern's weight 2.0 as
confidence. -/
lemma findGo_math_head (u : String) (now : Clock) (p : Pattern)
    (ps : List Pattern) (best : Option String) (conf : ℚ)
    (hc : p.category = "math") (hp : p.pat.search u = true)
    (e : String) (he : extractMathSub u = some e) :
    findGo u now (p :: ps) best conf = (handle_math e, p.weight) := by
  simp [findGo, hp, hc, he]

theorem find_best_response_math (msg : String) (now : Clock)
    (h : Pat.search Pat.mathRe (pyLower (pyStrip msg)) = true) :
    ∃ e, extractMathSub (pyLower (pyStrip msg)) = some e
      ∧ find_best_response defaultPatterns msg now = (handle_math e, 2) := by
  rcases extract_isSome _ h with ⟨e, he⟩
  exact ⟨e, he, findGo_math_head (pyLower (pyStrip msg)) now pMath
    [pTime, pDate, pGreeting, pHowAre, pIdentity, pCapabilities,
     pGratitude, pFarewell, pHelp, pHumor, pAge, pFallback] none 0 rfl h e he⟩

/-- Witness for C3 at input `2+2`. -/
theorem find_best_response_math_witness :
    ∃ e, extractMathSub (pyLower (pyStrip "2+2")) = some e
      ∧ find_best_response defaultPatterns "2+2" clk0 = (handle_math e, 2) :=
  find_best_response_math "2+2" clk0 (by decide)

lemma findGo_ne (u : String) (now : Clock) :
    ∀ (ps : List Pattern) (best : Option String) (conf : ℚ),
      (∀ r, best = some r → r ≠ "") →
      (findGo u now ps best conf).1 ≠ "" := by
  intro ps
  induction ps with
  | nil =>
    intro best conf h
    cases best with
    | none => simp [findGo]
    | some r => simpa [findGo] using h r rfl
  | cons p ps ih =>
    intro best conf h
    simp only [findGo]
    cases hp : p.pat.search u with
    | false => simpa [hp] using ih best conf h
    | true =>
      rw [if_pos rfl]
      by_cases hm : p.category = "math"
      · rw [if_pos hm]
        cases hx : extractMathSub u with
        | none => exact ih best conf h
        | some e => exact handle_math_ne_empty e
      · rw [if_neg hm]
        by_cases ht : p.category = "time"
        · rw [if_pos ht]
          exact handle_time_query_ne_empty now
        · rw [if_neg ht]
          by_cases hd : p.category = "date"
          · rw [if_pos hd]
            exact handle_date_query_ne_empty now
          · rw [if_neg hd]
            by_cases hr : p.response = ""
            · rw [if_pos hr]
              exact ih best conf h
            · rw [if_neg hr]
              by_cases hw : conf < p.weight
              · rw [if_pos hw]
                refine ih (some p.response) p.weight ?_
                intro r hrr
                have := Option.some.inj hrr
                rw [← this]
                exact hr
              · rw [if_neg hw]
                exact ih best conf h

lemma find_best_response_ne (ps : List Pattern) (msg : String) (now : Clock) :
    (find_best_response ps msg now).1 ≠ "" :=
  findGo_ne _ _ ps none 0 (fun _ hr => nomatch hr)

lemma get_response_plain (st : ChatState) (m : String) (now : Clock)
    (h : PlainMsg m) :
    get_response st m now none =
      ((find_best_response defaultPatterns m now).1,
       { conversation_history :=
           push20 st.conversation_history (m, (find_best_response defaultPatterns m now).1)
         log := st.log ++ [⟨m, (find_best_response defaultPatterns m now).1,
           (find_best_response defaultPatterns m now).2⟩] }) := by
  obtain ⟨h0, h1, h2, h3, h4, h5⟩ := h
  simp [get_response, get_responseCore, h0, h1, h2, h3, h4, h5]

/-- C10: a non-empty, non-command turn returns exactly the matcher's
non-empty response and appends exactly one exchange row to the durable log,
carrying the original unmodified message, the returned response string and
the matcher's confidence. -/
theorem get_response_logs_exchange (st : ChatState) (msg : String) (now : Clock)
    (h : PlainMsg msg) :
    (get_response st msg now none).1 ≠ ""
    ∧ (get_response st msg now none).2.log =
        st.log ++ [⟨msg, (get_response st msg now none).1,
          (find_best_response defaultPatterns msg now).2⟩]
    ∧ (get_response st msg now none).1 = (find_best_response defaultPatterns msg now).1 := by
  rw [get_response_plain st msg now h]
  exact ⟨find_best_response_ne defaultPatterns msg now, rfl, rfl⟩

/-- Witness for C10 at a plain input. -/
theorem get_response_logs_exchange_witness :
    (get_response initState "z" clk0 none).1 ≠ ""
    ∧ (get_response initState "z" clk0 none).2.log =
        initState.log ++ [⟨"z", (get_response initState "z" clk0 none).1,
          (find_best_response defaultPatterns "z" clk0).2⟩]
    ∧ (get_response initState "z" clk0 none).1 =
        (find_best_response defaultPatterns "z" clk0).1 :=
  get_response_logs_exchange initState "z" clk0 (by decide)

/-- The last 20 entries (all of them when there are at most 20). -/
def takeLast20 (l : List (String × String)) : List (String × String) :=
  l.drop (l.length - 20)

lemma takeLast20_of_le (l : List (String × String)) (h : l.length ≤ 20) :
    takeLast20 l = l := by
  unfold takeLast20
  have h0 : l.length - 20 = 0 := by omega
  rw [h0, List.drop_zero]

lemma takeLast20_len (l : List (String × String)) : (takeLast20 l).length ≤ 20 := by
  unfold takeLast20
  rw [List.length_drop]
  omega

lemma push20_len (h : List (String × String)) (p : String × String)
    (_hl : h.length ≤ 20) : (push20 h p).length ≤ 20 := by
  unfold push20
  split
  · rw [List.length_drop]
    omega
  · rename_i hc
    omega

lemma push20_eq_takeLast (h : List (String × String)) (p : String × String)
    (_hl : h.length ≤ 20) : push20 h p = takeLast20 (h ++ [p]) := by
  unfold push20 takeLast20
  split
  · rfl
  · rename_i hc
    have h0 : (h ++ [p]).length - 20 = 0 := by omega
    rw [h0, List.drop_zero]

lemma takeLast20_cat (pre x : List (String × String)) (hx : 20 ≤ x.length) :
    takeLast20 (pre ++ x) = takeLast20 x := by
  unfold takeLast20
  rw [List.length_append]
  have h1 : pre.length + x.length - 20 = pre.length + (x.length - 20) := by omega
  rw [h1, List.drop_append]

lemma takeLast20_absorb (l ps : List (String × String)) :
    takeLast20 (takeLast20 l ++ ps) = takeLast20 (l ++ ps) := by
  by_cases h : 20 ≤ l.length
  · have hlen : (takeLast20 l).length = 20 := by
      unfold takeLast20
      rw [List.length_drop]
      omega
    have hsplit : l = l.take (l.length - 20) ++ takeLast20 l :=
      (List.take_append_drop _ l).symm
    conv_rhs => rw [hsplit, List.append_assoc]
    rw [takeLast20_cat (l.take (l.length - 20)) (takeLast20 l ++ ps)
      (by rw [List.length_append, hlen]; omega)]
  · rw [takeLast20_of_le l (by omega)]

lemma foldl_push20 (ps : List (String × String)) :
    ∀ h : List (String × String), h.length ≤ 20 →
      ps.foldl push20 h = takeLast20 (h ++ ps) := by
  induction ps with
  | nil =>
    intro h hl
    rw [List.append_nil, List.foldl_nil, takeLast20_of_le h hl]
  | cons p ps ih =>
    intro h hl
    rw [List.foldl_cons, ih (push20 h p) (push20_len h p hl),
      push20_eq_takeLast h p hl, takeLast20_absorb]
    rw [List.append_assoc]
    rfl

lemma runAll_hist (now : Clock) :
    ∀ (msgs : List String) (st : ChatState), (∀ m ∈ msgs, PlainMsg m) →
      (runAll now st msgs).conversation_history =
        (msgs.map (fun m => (m, (find_best_response defaultPatterns m now).1))).foldl
          push20 st.conversation_history := by
  intro msgs
  induction msgs with
  | nil => intro st _; rfl
  | cons m ms ih =>
    intro st h
    have hm : PlainMsg m := h m (List.mem_cons_self m ms)
    have hms : ∀ x ∈ ms, PlainMsg x := fun x hx => h x (List.mem_cons_of_mem m hx)
    show (runAll now (get_response st m now none).2 ms).conversation_history = _
    rw [ih _ hms, get_response_plain st m now hm, List.map_cons, List.foldl_cons]


/-- C4: the session history ring.  (i) Every call preserves length ≤ 20;
(ii) 21 plain calls from a fresh instance leave exactly the last 20
(input, response) pairs, the oldest evicted; (iii) empty input leaves the
state unchanged; (iv) the history command leaves the state unchanged;
(v) the clear command empties exactly the ring; (vi) the stats command
leaves the state unchanged. -/
theorem get_response_history_ring :
    (∀ (st : ChatState) (msg : String) (now : Clock) (fault : Option String),
      st.conversation_history.length ≤ 20 →
      ((get_response st msg now fault).2).conversation_history.length ≤ 20)
    ∧ (∀ (now : Clock) (msgs : List String), msgs.length = 21 →
      (∀ m ∈ msgs, PlainMsg m) →
      (runAll now initState msgs).conversation_history =
        (msgs.map (fun m => (m, (find_best_response defaultPatterns m now).1))).drop 1)
    ∧ (∀ (st : ChatState) (msg : String) (now : Clock) (fault : Option String),
      pyStrip msg = "" → (get_response st msg now fault).2 = st)
    ∧ (∀ (st : ChatState) (msg : String) (now : Clock) (fault : Option String),
      pyStrip msg ≠ "" →
      (strContains (pyLower msg) "conversation history" = true ∨
        strContains (pyLower msg) "chat history" = true) →
      (get_response st msg now fault).2 = st)
    ∧ (∀ (st : ChatState) (msg : String) (now : Clock) (fault : Option String),
      pyStrip msg ≠ "" →
      strContains (pyLower msg) "conversation history" = false →
      strContains (pyLower msg) "chat history" = false →
      strContains (pyLower msg) "clear history" = true →
      (get_response st msg now fault).2 = { st with conversation_history := [] })
    ∧ (∀ (st : ChatState) (msg : String) (now : Clock) (fault : Option String),
      pyStrip msg ≠ "" →
      strContains (pyLower msg) "conversation history" = false →
      strContains (pyLower msg) "chat history" = false →
      strContains (pyLower msg) "clear history" = false →
      (strContains (pyLower msg) "stats" = true ∨
        strContains (pyLower msg) "statistics" = true) →
      (get_response st msg now fault).2 = st) := by
  refine ⟨?_, ?_, ?_, ?_, ?_, ?_⟩
  · intro st msg now fault hl
    unfold get_response get_responseCore
    by_cases h0 : pyStrip msg = ""
    · simp [h0, hl]
    · rw [if_neg h0]
      by_cases h1 : strContains (pyLower msg) "conversation history" = true
      · by_cases hh : st.conversation_history = [] <;> simp [h1, hh, hl]
      · by_cases h2 : strContains (pyLower msg) "chat history" = true
        · by_cases hh : st.conversation_history = [] <;>
            simp [h1, h2, hh, hl]
        · rw [Bool.not_eq_true] at h1 h2
          by_cases h3 : strContains (pyLower msg) "clear history" = true
          · simp [h1, h2, h3, hl]
          · rw [Bool.not_eq_true] at h3
            by_cases h4 : strContains (pyLower msg) "stats" = true
            · cases fault <;> simp [h1, h2, h3, h4, hl]
            · rw [Bool.not_eq_true] at h4
              by_cases h5 : strContains (pyLower msg) "statistics" = true
              · cases fault <;> simp [h1, h2, h3, h4, h5, hl]
              · rw [Bool.not_eq_true] at h5
                cases fault with
                | some m => simp [h1, h2, h3, h4, h5, hl]
                | none =>
                  simp only [h1, h2, h3, h4, h5, Bool.or_self, Bool.false_eq_true,
                    if_false]
                  exact push20_len _ _ hl
  · intro now msgs hlen hplain
    rw [runAll_hist now msgs initState hplain]
    show List.foldl push20 []
        (List.map (fun m => (m, (find_best_response defaultPatterns m now).1)) msgs) =
      List.drop 1 (List.map (fun m => (m, (find_best_response defaultPatterns m now).1)) msgs)
    rw [foldl_push20 _ [] (by simp), List.nil_append]
    unfold takeLast20
    rw [List.length_map, hlen]
  · intro st msg now fault h0
    simp [get_response, get_responseCore, h0]
  · intro st msg now fault h0 h12
    unfold get_response get_responseCore
    rw [if_neg h0]
    rcases h12 with h1 | h2
    · by_cases hh : st.conversation_history = [] <;> simp [h1, hh]
    · by_cases hh : st.conversation_history = [] <;> simp [h2, hh]
  · intro st msg now fault h0 h1 h2 h3
    simp [get_response, get_responseCore, h0, h1, h2, h3]
  · intro st msg now fault h0 h1 h2 h3 h45
    unfold get_response get_responseCore
    rw [if_neg h0]
    rcases h45 with h4 | h5
    · cases fault <;> simp [h1, h2, h3, h4]
    · cases fault <;> simp [h1, h2, h3, h5]

/-- Witness for C4: a concrete bounded-length call, 21 identical plain
calls, and a concrete clear. -/
theorem get_response_history_ring_witness :
    ((get_response initState "z" clk0 none).2).conversation_history.length ≤ 20
    ∧ (runAll clk0 initState (List.replicate 21 "z")).conversation_history =
        ((List.replicate 21 "z").map
          (fun m => (m, (find_best_response defaultPatterns m clk0).1))).drop 1
    ∧ (get_response ⟨[("q", "a")], []⟩ "clear history" clk0 none).2 =
        { (⟨[("q", "a")], []⟩ : ChatState) with conversation_history := [] } :=
  ⟨get_response_history_ring.1 initState "z" clk0 none (by decide),
   get_response_history_ring.2.1 clk0 (List.replicate 21 "z") (by decide) (by decide),
   get_response_history_ring.2.2.2.2.1 ⟨[("q", "a")], []⟩ "clear history" clk0 none
     (by decide) (by decide) (by decide) (by decide)⟩

/-- The categories with special-cased handling in the matcher. -/
def SpecialCat (p : Pattern) : Prop :=
  p.category = "math" ∨ p.category = "time" ∨ p.category = "date"

instance (p : Pattern) : Decidable (SpecialCat p) := by
  unfold SpecialCat; infer_instance

lemma findGo_keep (u : String) (now : Clock) :
    ∀ (l : List Pattern) (r : String) (w : ℚ),
      (∀ p ∈ l, SpecialCat p → p.pat.search u = false) →
      (∀ p ∈ l, p.pat.search u = true → p.weight ≤ w) →
      findGo u now l (some r) w = (r, w) := by
  intro l
  induction l with
  | nil => intro r w _ _; rfl
  | cons p ps ih =>
    intro r w hs hw
    simp only [findGo]
    cases hp : p.pat.search u with
    | false =>
      rw [if_neg (by simp)]
      exact ih r w (fun q hq => hs q (List.mem_cons_of_mem p hq))
        (fun q hq => hw q (List.mem_cons_of_mem p hq))
    | true =>
      rw [if_pos rfl]
      have hns : ¬ SpecialCat p := fun hc => by
        have := hs p (List.mem_cons_self p ps) hc
        rw [hp] at this
        cases this
      rw [if_neg (fun hc => hns (Or.inl hc)),
        if_neg (fun hc => hns (Or.inr (Or.inl hc))),
        if_neg (fun hc => hns (Or.inr (Or.inr hc)))]
      have htl1 : ∀ q ∈ ps, SpecialCat q → q.pat.search u = false :=
        fun q hq => hs q (List.mem_cons_of_mem p hq)
      have htl2 : ∀ q ∈ ps, q.pat.search u = true → q.weight ≤ w :=
        fun q hq => hw q (List.mem_cons_of_mem p hq)
      by_cases hr : p.response = ""
      · rw [if_pos hr]
        exact ih r w htl1 htl2
      · rw [if_neg hr]
        have hle : p.weight ≤ w := hw p (List.mem_cons_self p ps) hp
        rw [if_neg (not_lt.mpr hle)]
        exact ih r w htl1 htl2

lemma findGo_first_max (u : String) (now : Clock) (q : Pattern) (l₂ : List Pattern)
    (hq : q.pat.search u = true) (hqr : q.response ≠ "")
    (hqs : ¬ SpecialCat q)
    (hs2 : ∀ p ∈ l₂, SpecialCat p → p.pat.search u = false)
    (h2 : ∀ p ∈ l₂, p.pat.search u = true → p.weight ≤ q.weight) :
    ∀ (l₁ : List Pattern) (best : Option String) (w : ℚ),
      (∀ p ∈ l₁, SpecialCat p → p.pat.search u = false) →
      (∀ p ∈ l₁, p.pat.search u = true → p.response ≠ "" → p.weight < q.weight) →
      w < q.weight →
      findGo u now (l₁ ++ q :: l₂) best w = (q.response, q.weight) := by
  intro l₁
  induction l₁ with
  | nil =>
    intro best w _ _ hw
    rw [List.nil_append]
    simp only [findGo]
    rw [if_pos hq,
      if_neg (fun hc => hqs (Or.inl hc)),
      if_neg (fun hc => hqs (Or.inr (Or.inl hc))),
      if_neg (fun hc => hqs (Or.inr (Or.inr hc))),
      if_neg hqr, if_pos hw]
    exact findGo_keep u now l₂ q.response q.weight hs2 h2
  | cons p ps ih =>
    intro best w h1s h1w hw
    rw [List.cons_append]
    simp only [findGo]
    have htl1 : ∀ x ∈ ps, SpecialCat x → x.pat.search u = false :=
      fun x hx => h1s x (List.mem_cons_of_mem p hx)
    have htl2 : ∀ x ∈ ps, x.pat.search u = true → x.response ≠ "" →
        x.weight < q.weight :=
      fun x hx => h1w x (List.mem_cons_of_mem p hx)
    cases hp : p.pat.search u with
    | false =>
      rw [if_neg (by simp)]
      exact ih best w htl1 htl2 hw
    | true =>
      rw [if_pos rfl]
      have hns : ¬ SpecialCat p := fun hc => by
        have := h1s p (List.mem_cons_self p ps) hc
        rw [hp] at this
        cases this
      rw [if_neg (fun hc => hns (Or.inl hc)),
        if_neg (fun hc => hns (Or.inr (Or.inl hc))),
        if_neg (fun hc => hns (Or.inr (Or.inr hc)))]
      by_cases hr : p.response = ""
      · rw [if_pos hr]
        exact ih best w htl1 htl2 hw
      · rw [if_neg hr]
        have hlt : p.weight < q.weight :=
          h1w p (List.mem_cons_self p ps) hp hr
        by_cases hcmp : w < p.weight
        · rw [if_pos hcmp]
          exact ih (some p.response) p.weight htl1 htl2 hlt
        · rw [if_neg hcmp]
          exact ih best w htl1 htl2 hw

/-- C8: non-special patterns with non-empty responses replace the tracked
best match only on strictly greater weight: if `q` matches, every earlier
matched pattern with a response is strictly lighter and every later matched
pattern is no heavier, then `q` — the first pattern of maximal weight in
load order — supplies the response, and the confidence is `q`'s weight. -/
theorem find_best_response_tie (l₁ l₂ : List Pattern) (q : Pattern)
    (msg : String) (now : Clock)
    (hs : ∀ p ∈ l₁ ++ q :: l₂, SpecialCat p →
      p.pat.search (pyLower (pyStrip msg)) = false)
    (hq : q.pat.search (pyLower (pyStrip msg)) = true)
    (hqr : q.response ≠ "") (hqw : 0 < q.weight)
    (h1 : ∀ p ∈ l₁, p.pat.search (pyLower (pyStrip msg)) = true →
      p.response ≠ "" → p.weight < q.weight)
    (h2 : ∀ p ∈ l₂, p.pat.search (pyLower (pyStrip msg)) = true →
      p.weight ≤ q.weight) :
    find_best_response (l₁ ++ q :: l₂) msg now = (q.response, q.weight) := by
  have hqs : ¬ SpecialCat q := fun hc => by
    have := hs q (List.mem_append_right l₁ (List.mem_cons_self q l₂)) hc
    rw [hq] at this
    cases this
  have hs2 : ∀ p ∈ l₂, SpecialCat p → p.pat.search (pyLower (pyStrip msg)) = false :=
    fun p hp => hs p (List.mem_append_right l₁ (List.mem_cons_of_mem q hp))
  have hs1 : ∀ p ∈ l₁, SpecialCat p → p.pat.search (pyLower (pyStrip msg)) = false :=
    fun p hp => hs p (List.mem_append_left _ hp)
  exact findGo_first_max (pyLower (pyStrip msg)) now q l₂ hq hqr hqs hs2 h2
    l₁ none 0 hs1 h1 hqw

/-- Witness for C8: `thanks and farewell` matches the gratitude and
farewell patterns, tied at weight 1.0 (and the 0.1 catch-all); the
first-loaded gratitude pattern wins. -/
theorem find_best_response_tie_witness :
    find_best_response
        ([pMath, pTime, pDate, pGreeting, pHowAre, pIdentity, pCapabilities] ++
          pGratitude :: [pFarewell, pHelp, pHumor, pAge, pFallback])
        "thanks and farewell" clk0 =
      (pGratitude.response, pGratitude.weight) :=
  find_best_response_tie
    [pMath, pTime, pDate, pGreeting, pHowAre, pIdentity, pCapabilities]
    [pFarewell, pHelp, pHumor, pAge, pFallback] pGratitude
    "thanks and farewell" clk0
    (by decide) (by decide) (by decide) (by with_unfolding_all decide)
    (by with_unfolding_all decide) (by with_unfolding_all decide)

/-- The statistics exactly as the specification words them: row count, the
two-decimal rounding of the mean confidence (0.0 when there are no rows),
and the number of distinct `user_input` values under case-sensitive exact
comparison. -/
def specStats (log : List Exchange) : Stats :=
  { total_conversations := log.length
    average_confidence :=
      if log.length = 0 then 0
      else round2 ((log.map (fun e => e.confidence)).sum / (log.length : ℚ))
    unique_inputs := (log.map (fun e => e.user_input)).toFinset.card }

/-- C9: `get_conversation_stats` over a log of N exchanges returns exactly
the spec-side statistics: `totalConversations = N`,
`averageConfidence = round(mean, 2)` (0.0 for an empty log), and
`uniqueInputs` the number of distinct inputs. -/
theorem get_conversation_stats_correct (log : List Exchange) :
    get_conversation_stats log = specStats log := by
  unfold get_conversation_stats specStats
  refine congrArg₂ (Stats.mk log.length) ?_ ?_
  · by_cases h : log.length = 0
    · rw [if_pos h, if_pos h]
      with_unfolding_all decide
    · rw [if_neg h, if_neg h]
  · exact (List.card_toFinset _).symm
